import Mathlib

/-!
Shallow embedding of the Ferris-Todo-App core (src/models.rs, src/repository.rs).

Modelling choices:
* `Uuid` is modelled as `Nat`; `SystemTime` is modelled as a `Nat` timestamp.
  `Uuid::new_v4()` and `SystemTime::now()` are effects of the environment, so
  `create` takes the generated `id` and the current time `now` as explicit
  arguments; reachability assumes the generated id is fresh, which is exactly
  the practical uniqueness guarantee of version-4 UUIDs the code relies on.
* `HashMap<Uuid, Todo>` is modelled as a `List Todo`.  The map only ever
  stores a todo under its own `id` field, so an id-keyed list is faithful;
  uniqueness of keys corresponds to `Nodup` of the stored ids and is part of
  the reachability invariant.  `HashMap::insert` is `insertItem` (replace an
  existing entry with the same key, else add), `HashMap::remove` keeps the
  entries whose key differs, `HashMap::retain` is `List.filter`, and
  `values_mut` iteration is `List.map`.
* The `u32` counters are modelled as `Nat`.  Rust's `-=` on `u32` panics on
  underflow (in debug builds); `Nat` subtraction truncates instead, and the
  no-underflow theorem shows every subtraction the code performs happens when
  the subtrahend is at most the counter, so the two semantics agree on all
  reachable states.
* `Vec::sort_by(|a, b| b.created_at.cmp(&a.created_at))` is a stable sort by
  descending `created_at`; it is modelled with `List.mergeSort`, which is
  also stable.
-/

namespace FerrisTodo

/-- `TodoListFilter` from src/models.rs. -/
inductive TodoListFilter where
  | Completed
  | Active
  | All
deriving DecidableEq, Repr

/-- `TodoToggleAction` from src/models.rs. -/
inductive TodoToggleAction where
  | Uncheck
  | Check
deriving DecidableEq, Repr

/-- `Todo` from src/models.rs (`Uuid` as `Nat`, `SystemTime` as `Nat`). -/
structure Todo where
  is_completed : Bool
  created_at : Nat
  text : String
  id : Nat
deriving DecidableEq, Repr

/-- `Todo::new` from src/models.rs; the generated id and the clock reading are
explicit arguments. -/
def Todo.new (text : String) (now : Nat) (id : Nat) : Todo :=
  { is_completed := false, text := text, created_at := now, id := id }

/-- `TodoRepoError` from src/repository.rs. -/
inductive TodoRepoError where
  | NotFound
deriving DecidableEq, Repr

/-- `TodoRepo` from src/repository.rs (`HashMap<Uuid, Todo>` as `List Todo`). -/
structure TodoRepo where
  num_completed_items : Nat
  num_active_items : Nat
  num_all_items : Nat
  items : List Todo
deriving DecidableEq, Repr

/-- `TodoRepo::default()`: zero counters, empty map. -/
def TodoRepo.default : TodoRepo :=
  { num_completed_items := 0, num_active_items := 0, num_all_items := 0, items := [] }

/-- `self.items.get(id)`: look a todo up by id. -/
def findTodo (items : List Todo) (id : Nat) : Option Todo :=
  items.find? (fun t => t.id == id)

/-- `TodoRepo::get` from src/repository.rs. -/
def TodoRepo.get (s : TodoRepo) (id : Nat) : Except TodoRepoError Todo :=
  match findTodo s.items id with
  | some t => .ok t
  | none => .error .NotFound

/-- The filter predicate inside `TodoRepo::list`. -/
def matchesFilter (filter : TodoListFilter) (t : Todo) : Bool :=
  match filter with
  | .All => true
  | .Completed => t.is_completed
  | .Active => !t.is_completed

/-- The comparator inside `TodoRepo::list`: `b.created_at.cmp(&a.created_at)`
orders by descending creation time. -/
def listLe (a b : Todo) : Bool :=
  b.created_at ≤ a.created_at

/-- `TodoRepo::list` from src/repository.rs: filter, then stable-sort by
descending `created_at`. -/
def TodoRepo.list (s : TodoRepo) (filter : TodoListFilter) : List Todo :=
  (s.items.filter (matchesFilter filter)).mergeSort listLe

/-- `HashMap::insert` keyed by `todo.id`: replace the entry carrying that id
if present, otherwise add the todo. -/
def insertItem (items : List Todo) (todo : Todo) : List Todo :=
  if items.any (fun t => t.id == todo.id) then
    items.map (fun t => if t.id == todo.id then todo else t)
  else
    items ++ [todo]

/-- `TodoRepo::create` from src/repository.rs; returns the new repository
state together with the created todo. -/
def TodoRepo.create (s : TodoRepo) (text : String) (now : Nat) (id : Nat) :
    TodoRepo × Todo :=
  let todo := Todo.new text now id
  ({ num_completed_items := s.num_completed_items,
     num_active_items := s.num_active_items + 1,
     num_all_items := s.num_all_items + 1,
     items := insertItem s.items todo }, todo)

/-- `TodoRepo::delete` from src/repository.rs; `Ok` carries the new state. -/
def TodoRepo.delete (s : TodoRepo) (id : Nat) : Except TodoRepoError TodoRepo :=
  match findTodo s.items id with
  | none => .error .NotFound
  | some old_todo =>
    .ok { num_all_items := s.num_all_items - 1,
          num_completed_items :=
            if old_todo.is_completed then s.num_completed_items - 1
            else s.num_completed_items,
          num_active_items :=
            if old_todo.is_completed then s.num_active_items
            else s.num_active_items - 1,
          items := s.items.filter (fun t => !(t.id == id)) }

/-- The `if let Some(completed) = is_completed` block of `TodoRepo::update`:
the updated todo together with the new completed and active counters. -/
def completedStep (s : TodoRepo) (todo : Todo) : Option Bool → Todo × Nat × Nat
  | none => (todo, s.num_completed_items, s.num_active_items)
  | some completed =>
    if todo.is_completed != completed then
      ({ todo with is_completed := completed },
        if completed then s.num_completed_items + 1 else s.num_completed_items - 1,
        if completed then s.num_active_items - 1 else s.num_active_items + 1)
    else
      (todo, s.num_completed_items, s.num_active_items)

/-- The `if let Some(text) = text` block of `TodoRepo::update`. -/
def textStep (todo : Todo) : Option String → Todo
  | some t => { todo with text := t }
  | none => todo

/-- `TodoRepo::update` from src/repository.rs; `Ok` carries the new state and
the clone of the mutated todo. -/
def TodoRepo.update (s : TodoRepo) (id : Nat) (text : Option String)
    (is_completed : Option Bool) : Except TodoRepoError (TodoRepo × Todo) :=
  match findTodo s.items id with
  | none => .error .NotFound
  | some todo =>
    let step := completedStep s todo is_completed
    let new_todo := textStep step.1 text
    .ok ({ num_completed_items := step.2.1,
           num_active_items := step.2.2,
           num_all_items := s.num_all_items,
           items := s.items.map (fun t => if t.id == id then new_todo else t) },
         new_todo)

/-- `TodoRepo::delete_completed` from src/repository.rs. -/
def TodoRepo.delete_completed (s : TodoRepo) : TodoRepo :=
  { num_all_items := s.num_all_items - s.num_completed_items,
    num_completed_items := 0,
    num_active_items := s.num_active_items,
    items := s.items.filter (fun t => !t.is_completed) }

/-- `TodoRepo::toggle_completed` from src/repository.rs: closed-form counter
reset, then overwrite every flag. -/
def TodoRepo.toggle_completed (s : TodoRepo) (action : TodoToggleAction) : TodoRepo :=
  match action with
  | .Check =>
    { num_active_items := 0,
      num_completed_items := s.num_all_items,
      num_all_items := s.num_all_items,
      items := s.items.map (fun t => { t with is_completed := true }) }
  | .Uncheck =>
    { num_completed_items := 0,
      num_active_items := s.num_all_items,
      num_all_items := s.num_all_items,
      items := s.items.map (fun t => { t with is_completed := false }) }

example :
    (TodoRepo.default.create "Task A" 0 7).2 =
      { is_completed := false, created_at := 0, text := "Task A", id := 7 } := by
  decide

example :
    TodoRepo.default.get 3 = .error .NotFound := by
  rfl

example :
    ((TodoRepo.default.create "Task A" 0 7).1.update 7 none (some true)).map
        (fun p => (p.1.num_completed_items, p.1.num_active_items, p.1.num_all_items)) =
      .ok (1, 0, 1) := by
  rfl

example :
    (((TodoRepo.default.create "Task A" 0 7).1.create "Task B" 1 8).1.delete 7).map
        (fun s => (s.num_all_items, s.num_active_items, s.num_completed_items)) =
      .ok (1, 1, 0) := by
  rfl

/-- Number of stored todos whose `is_completed` flag is true. -/
def countCompleted (items : List Todo) : Nat :=
  items.countP (fun t => t.is_completed)

/-- Number of stored todos whose `is_completed` flag is false. -/
def countActive (items : List Todo) : Nat :=
  items.countP (fun t => !t.is_completed)

/-- The counter-consistency invariant of `TodoRepo`: each counter agrees with
the stored todos. -/
def Inv (s : TodoRepo) : Prop :=
  s.num_all_items = s.items.length ∧
  s.num_active_items = countActive s.items ∧
  s.num_completed_items = countCompleted s.items

/-- The stored ids are pairwise distinct (uniqueness of `HashMap` keys). -/
def UniqueIds (s : TodoRepo) : Prop :=
  (s.items.map Todo.id).Nodup

/-- Well-formedness: counter consistency plus key uniqueness. -/
def WF (s : TodoRepo) : Prop :=
  Inv s ∧ UniqueIds s

/-- `id` is absent from the store. -/
def freshId (s : TodoRepo) (id : Nat) : Prop :=
  ∀ t ∈ s.items, t.id ≠ id

/-- States reachable from `TodoRepo::default()` by the public mutating
operations.  `create`'s id comes from `Uuid::new_v4()`, whose uniqueness the
code relies on, so the step carries a freshness hypothesis; failing `update`
and `delete` calls leave the state unchanged and need no step. -/
inductive Reachable : TodoRepo → Prop where
  | init : Reachable TodoRepo.default
  | create (s : TodoRepo) (text : String) (now id : Nat) :
      Reachable s → freshId s id → Reachable (s.create text now id).1
  | update (s s' : TodoRepo) (id : Nat) (text : Option String)
      (is_completed : Option Bool) (t : Todo) :
      Reachable s → s.update id text is_completed = .ok (s', t) → Reachable s'
  | delete (s s' : TodoRepo) (id : Nat) :
      Reachable s → s.delete id = .ok s' → Reachable s'
  | delete_completed (s : TodoRepo) :
      Reachable s → Reachable s.delete_completed
  | toggle_completed (s : TodoRepo) (action : TodoToggleAction) :
      Reachable s → Reachable (s.toggle_completed action)

/-- Result of one repository call, as seen by the caller. -/
inductive Output where
  | gotTodo (t : Todo)
  | todoList (ts : List Todo)
  | unit
  | failure (e : TodoRepoError)
deriving DecidableEq, Repr

/-- `get` as a state transformer: `&self`, so the state is returned as is. -/
def stepGet (s : TodoRepo) (id : Nat) : TodoRepo × Output :=
  match s.get id with
  | .ok t => (s, .gotTodo t)
  | .error e => (s, .failure e)

/-- `list` as a state transformer: `&self`, so the state is returned as is. -/
def stepList (s : TodoRepo) (filter : TodoListFilter) : TodoRepo × Output :=
  (s, .todoList (s.list filter))

/-- `update` as a state transformer on `&mut self`: the `?` on
`items.get_mut` fires before any mutation, so on `NotFound` the receiver is
returned untouched. -/
def stepUpdate (s : TodoRepo) (id : Nat) (text : Option String)
    (is_completed : Option Bool) : TodoRepo × Output :=
  match s.update id text is_completed with
  | .ok (s', t) => (s', .gotTodo t)
  | .error e => (s, .failure e)

/-- `delete` as a state transformer on `&mut self`: the `?` on
`items.remove` fires before any counter change, so on `NotFound` the receiver
is returned untouched. -/
def stepDelete (s : TodoRepo) (id : Nat) : TodoRepo × Output :=
  match s.delete id with
  | .ok s' => (s', .unit)
  | .error e => (s, .failure e)

/-- A call of the public interface, with the caller-supplied arguments only:
the id and timestamp `create` consumes are generated inside the call. -/
inductive Call where
  | create (text : String)
  | update (id : Nat) (text : Option String) (is_completed : Option Bool)
  | delete (id : Nat)
  | deleteCompleted
  | toggleCompleted (action : TodoToggleAction)
  | get (id : Nat)
  | list (filter : TodoListFilter)
deriving DecidableEq, Repr

/-- A run of the repository: `Exec s calls gen s'` executes `calls` from
state `s`, ending in `s'`.  Each `create` consumes the next pair
`(id, now)` from `gen`, the stream of values produced by `Uuid::new_v4()`
and `SystemTime::now()`. -/
inductive Exec : TodoRepo → List Call → List (Nat × Nat) → TodoRepo → Prop where
  | nil (s : TodoRepo) : Exec s [] [] s
  | create (s : TodoRepo) (text : String) (id now : Nat) (cs : List Call)
      (gen : List (Nat × Nat)) (s' : TodoRepo) :
      Exec (s.create text now id).1 cs gen s' →
      Exec s (Call.create text :: cs) ((id, now) :: gen) s'
  | update (s : TodoRepo) (id : Nat) (text : Option String)
      (is_completed : Option Bool) (cs : List Call) (gen : List (Nat × Nat))
      (s' : TodoRepo) :
      Exec (stepUpdate s id text is_completed).1 cs gen s' →
      Exec s (Call.update id text is_completed :: cs) gen s'
  | delete (s : TodoRepo) (id : Nat) (cs : List Call) (gen : List (Nat × Nat))
      (s' : TodoRepo) :
      Exec (stepDelete s id).1 cs gen s' →
      Exec s (Call.delete id :: cs) gen s'
  | deleteCompleted (s : TodoRepo) (cs : List Call) (gen : List (Nat × Nat))
      (s' : TodoRepo) :
      Exec s.delete_completed cs gen s' →
      Exec s (Call.deleteCompleted :: cs) gen s'
  | toggleCompleted (s : TodoRepo) (action : TodoToggleAction) (cs : List Call)
      (gen : List (Nat × Nat)) (s' : TodoRepo) :
      Exec (s.toggle_completed action) cs gen s' →
      Exec s (Call.toggleCompleted action :: cs) gen s'
  | get (s : TodoRepo) (id : Nat) (cs : List Call) (gen : List (Nat × Nat))
      (s' : TodoRepo) :
      Exec (stepGet s id).1 cs gen s' →
      Exec s (Call.get id :: cs) gen s'
  | list (s : TodoRepo) (filter : TodoListFilter) (cs : List Call)
      (gen : List (Nat × Nat)) (s' : TodoRepo) :
      Exec (stepList s filter).1 cs gen s' →
      Exec s (Call.list filter :: cs) gen s'

/-! ### List-level helper lemmas -/

theorem countActive_add_countCompleted (items : List Todo) :
    countActive items + countCompleted items = items.length := by
  induction items with
  | nil => rfl
  | cons t ts ih =>
    simp only [countActive, countCompleted, List.countP_cons, List.length_cons] at *
    cases h : t.is_completed
    all_goals simp [h]
    all_goals omega

theorem findTodo_eq_none {items : List Todo} {id : Nat} :
    findTodo items id = none ↔ ∀ t ∈ items, t.id ≠ id := by
  unfold findTodo
  rw [List.find?_eq_none]
  simp

theorem findTodo_some_mem {items : List Todo} {id : Nat} {todo : Todo}
    (h : findTodo items id = some todo) : todo ∈ items :=
  List.mem_of_find?_eq_some h

theorem findTodo_some_id {items : List Todo} {id : Nat} {todo : Todo}
    (h : findTodo items id = some todo) : todo.id = id := by
  have := List.find?_some h
  simpa using this

theorem findTodo_isSome_of_mem {items : List Todo} {id : Nat} (t : Todo)
    (ht : t ∈ items) (hid : t.id = id) : ∃ todo, findTodo items id = some todo := by
  cases h : findTodo items id with
  | none => exact absurd hid (findTodo_eq_none.mp h t ht)
  | some todo => exact ⟨todo, rfl⟩

theorem map_replace_eq_self (id : Nat) (new : Todo) (xs : List Todo)
    (h : ∀ t ∈ xs, t.id ≠ id) :
    xs.map (fun t => if t.id == id then new else t) = xs := by
  have hcong : ∀ t ∈ xs, (if t.id == id then new else t) = t := by
    intro t ht
    rw [if_neg]
    simp [h t ht]
  rw [List.map_congr_left hcong, List.map_id']

theorem countP_replace (p : Todo → Bool) (id : Nat) (new : Todo) :
    ∀ xs : List Todo, (xs.map Todo.id).Nodup →
      ∀ old, xs.find? (fun t => t.id == id) = some old →
      (xs.map (fun t => if t.id == id then new else t)).countP p
          + (if p old then 1 else 0)
        = xs.countP p + (if p new then 1 else 0) := by
  intro xs
  induction xs with
  | nil => intro _ old h; simp at h
  | cons a as ih =>
    intro hnd old h
    simp only [List.map_cons, List.nodup_cons] at hnd
    obtain ⟨hna, hnd'⟩ := hnd
    by_cases ha : a.id = id
    · have hpa : (a.id == id) = true := by simpa using ha
      rw [List.find?_cons_of_pos as hpa] at h
      injection h with h
      subst h
      have htail : ∀ t ∈ as, t.id ≠ id := by
        intro t ht heq
        exact hna (by rw [ha, ← heq]; exact List.mem_map_of_mem Todo.id ht)
      rw [List.map_cons, if_pos hpa, map_replace_eq_self id new as htail]
      simp only [List.countP_cons]
      omega
    · have hpa : (a.id == id) = false := by simpa using ha
      rw [List.find?_cons_of_neg as (by simp [hpa])] at h
      have := ih hnd' old h
      rw [List.map_cons, if_neg (by simp [ha])]
      simp only [List.countP_cons]
      omega

theorem map_id_replace (id : Nat) (new : Todo) (hnew : new.id = id)
    (xs : List Todo) :
    (xs.map (fun t => if t.id == id then new else t)).map Todo.id
      = xs.map Todo.id := by
  rw [List.map_map]
  apply List.map_congr_left
  intro t ht
  by_cases h : t.id = id
  · simp [Function.comp, h, hnew]
  · simp [Function.comp, h]

theorem countP_remove (p : Todo → Bool) (id : Nat) :
    ∀ xs : List Todo, (xs.map Todo.id).Nodup →
      ∀ old, xs.find? (fun t => t.id == id) = some old →
      (xs.filter (fun t => !(t.id == id))).countP p + (if p old then 1 else 0)
        = xs.countP p := by
  intro xs
  induction xs with
  | nil => intro _ old h; simp at h
  | cons a as ih =>
    intro hnd old h
    simp only [List.map_cons, List.nodup_cons] at hnd
    obtain ⟨hna, hnd'⟩ := hnd
    by_cases ha : a.id = id
    · have hpa : (a.id == id) = true := by simpa using ha
      rw [List.find?_cons_of_pos as hpa] at h
      injection h with h
      subst h
      have htail : ∀ t ∈ as, (!(t.id == id)) = true := by
        intro t ht
        have : t.id ≠ id := by
          intro heq
          exact hna (by rw [ha, ← heq]; exact List.mem_map_of_mem Todo.id ht)
        simp [this]
      rw [List.filter_cons_of_neg (by simp [hpa]), List.filter_eq_self.mpr htail]
      simp [List.countP_cons]
    · have hpa : (a.id == id) = false := by simpa using ha
      rw [List.find?_cons_of_neg as (by simp [hpa])] at h
      have := ih hnd' old h
      rw [List.filter_cons_of_pos (by simp [hpa])]
      simp only [List.countP_cons]
      omega

theorem length_eq_countP_true (xs : List Todo) :
    xs.countP (fun _ => true) = xs.length := by
  induction xs with
  | nil => rfl
  | cons a as ih => simp [List.countP_cons, ih]

theorem insertItem_fresh (xs : List Todo) (todo : Todo)
    (h : ∀ t ∈ xs, t.id ≠ todo.id) : insertItem xs todo = xs ++ [todo] := by
  have hany : (xs.any fun t => t.id == todo.id) = false := by
    rw [List.any_eq_false]
    intro t ht
    simp [h t ht]
  unfold insertItem
  rw [hany]
  rfl

/-! ### Characterizations of the operations -/

theorem textStep_is_completed (todo : Todo) (text : Option String) :
    (textStep todo text).is_completed = todo.is_completed := by
  cases text <;> rfl

theorem textStep_id (todo : Todo) (text : Option String) :
    (textStep todo text).id = todo.id := by
  cases text <;> rfl

theorem completedStep_fst_id (s : TodoRepo) (todo : Todo) (c : Option Bool) :
    (completedStep s todo c).1.id = todo.id := by
  cases c with
  | none => rfl
  | some b =>
    simp only [completedStep]
    split <;> rfl

theorem completedStep_fst_completed (s : TodoRepo) (todo : Todo) (b : Bool) :
    (completedStep s todo (some b)).1.is_completed = b := by
  simp only [completedStep]
  by_cases h : todo.is_completed = b
  · rw [if_neg (by simp [h])]
    exact h
  · rw [if_pos (by simp [h])]

theorem update_ok_elim {s s' : TodoRepo} {id : Nat} {text : Option String}
    {c : Option Bool} {t : Todo} (h : s.update id text c = .ok (s', t)) :
    ∃ todo, findTodo s.items id = some todo ∧
      t = textStep (completedStep s todo c).1 text ∧
      s'.num_completed_items = (completedStep s todo c).2.1 ∧
      s'.num_active_items = (completedStep s todo c).2.2 ∧
      s'.num_all_items = s.num_all_items ∧
      s'.items = s.items.map (fun u => if u.id == id then t else u) := by
  unfold TodoRepo.update at h
  cases hf : findTodo s.items id with
  | none =>
    rw [hf] at h
    exact absurd h (by simp)
  | some todo =>
    rw [hf] at h
    rw [Except.ok.injEq, Prod.mk.injEq] at h
    obtain ⟨h1, h2⟩ := h
    subst h2
    subst h1
    exact ⟨todo, rfl, rfl, rfl, rfl, rfl, rfl⟩

theorem update_err_iff (s : TodoRepo) (id : Nat) (text : Option String)
    (c : Option Bool) :
    s.update id text c = .error .NotFound ↔ findTodo s.items id = none := by
  unfold TodoRepo.update
  cases hf : findTodo s.items id <;> simp

theorem delete_ok_elim {s s' : TodoRepo} {id : Nat} (h : s.delete id = .ok s') :
    ∃ old, findTodo s.items id = some old ∧
      s'.num_all_items = s.num_all_items - 1 ∧
      s'.num_completed_items =
        (if old.is_completed then s.num_completed_items - 1
         else s.num_completed_items) ∧
      s'.num_active_items =
        (if old.is_completed then s.num_active_items
         else s.num_active_items - 1) ∧
      s'.items = s.items.filter (fun u => !(u.id == id)) := by
  unfold TodoRepo.delete at h
  cases hf : findTodo s.items id with
  | none =>
    rw [hf] at h
    exact absurd h (by simp)
  | some old =>
    rw [hf] at h
    rw [Except.ok.injEq] at h
    subst h
    exact ⟨old, rfl, rfl, rfl, rfl, rfl⟩

theorem delete_err_iff (s : TodoRepo) (id : Nat) :
    s.delete id = .error .NotFound ↔ findTodo s.items id = none := by
  unfold TodoRepo.delete
  cases hf : findTodo s.items id <;> simp

theorem get_err_iff (s : TodoRepo) (id : Nat) :
    s.get id = .error .NotFound ↔ findTodo s.items id = none := by
  unfold TodoRepo.get
  cases hf : findTodo s.items id <;> simp

theorem create_items (s : TodoRepo) (text : String) (now id : Nat)
    (h : freshId s id) :
    (s.create text now id).1.items = s.items ++ [Todo.new text now id] := by
  unfold TodoRepo.create
  exact insertItem_fresh s.items (Todo.new text now id) h

/-! ### Well-formedness preservation -/

theorem wf_default : WF TodoRepo.default := by
  refine ⟨⟨rfl, rfl, rfl⟩, ?_⟩
  exact List.nodup_nil

theorem wf_create (s : TodoRepo) (text : String) (now id : Nat)
    (hwf : WF s) (h : freshId s id) : WF (s.create text now id).1 := by
  obtain ⟨⟨h1, h2, h3⟩, hu⟩ := hwf
  have hitems := create_items s text now id h
  constructor
  · refine ⟨?_, ?_, ?_⟩
    · show s.num_all_items + 1 = _
      rw [hitems, List.length_append, h1]
      rfl
    · show s.num_active_items + 1 = _
      rw [hitems]
      unfold countActive at *
      rw [List.countP_append, h2]
      rfl
    · show s.num_completed_items = _
      rw [hitems]
      unfold countCompleted at *
      rw [List.countP_append, h3]
      rfl
  · show ((s.create text now id).1.items.map Todo.id).Nodup
    rw [hitems, List.map_append]
    rw [List.nodup_append]
    refine ⟨hu, by simp, ?_⟩
    intro a ha hb
    simp only [List.map_cons, List.map_nil, List.mem_singleton] at hb
    obtain ⟨u, hu', hua⟩ := List.mem_map.mp ha
    exact h u hu' (by rw [hua]; exact hb)

theorem wf_update {s s' : TodoRepo} {id : Nat} {text : Option String}
    {c : Option Bool} {t : Todo} (hwf : WF s)
    (h : s.update id text c = .ok (s', t)) : WF s' := by
  obtain ⟨⟨h1, h2, h3⟩, hu⟩ := hwf
  obtain ⟨todo, hf, ht, hc', ha', hall', hitems'⟩ := update_ok_elim h
  have hid := findTodo_some_id hf
  have htid : t.id = id := by
    rw [ht, textStep_id, completedStep_fst_id, hid]
  have hrepC := countP_replace (fun u => u.is_completed) id t s.items hu todo hf
  have hrepA := countP_replace (fun u => !u.is_completed) id t s.items hu todo hf
  have hlen : s'.items.length = s.items.length := by
    rw [hitems', List.length_map]
  have hids : s'.items.map Todo.id = s.items.map Todo.id := by
    rw [hitems']
    exact map_id_replace id t htid s.items
  refine ⟨⟨?_, ?_, ?_⟩, ?_⟩
  · rw [hall', hlen, h1]
  · rw [ha']
    unfold countActive at *
    rw [← hitems'] at hrepA
    cases c with
    | none =>
      have htc : t.is_completed = todo.is_completed := by
        rw [ht, textStep_is_completed]
        rfl
      simp only [completedStep]
      cases hh : todo.is_completed
      · rw [hh] at htc
        simp [hh, htc] at hrepA
        omega
      · rw [hh] at htc
        simp [hh, htc] at hrepA
        omega
    | some b =>
      have htc : t.is_completed = b := by
        rw [ht, textStep_is_completed, completedStep_fst_completed]
      simp only [completedStep]
      cases hbb : b
      · cases hh : todo.is_completed
        · simp [hh]
          simp [hh, hbb, htc] at hrepA
          omega
        · simp [hh]
          simp [hh, hbb, htc] at hrepA
          omega
      · cases hh : todo.is_completed
        · simp [hh]
          simp [hh, hbb, htc] at hrepA
          omega
        · simp [hh]
          simp [hh, hbb, htc] at hrepA
          omega
  · rw [hc']
    unfold countCompleted at *
    rw [← hitems'] at hrepC
    cases c with
    | none =>
      have htc : t.is_completed = todo.is_completed := by
        rw [ht, textStep_is_completed]
        rfl
      simp only [completedStep]
      cases hh : todo.is_completed
      · rw [hh] at htc
        simp [hh, htc] at hrepC
        omega
      · rw [hh] at htc
        simp [hh, htc] at hrepC
        omega
    | some b =>
      have htc : t.is_completed = b := by
        rw [ht, textStep_is_completed, completedStep_fst_completed]
      simp only [completedStep]
      cases hbb : b
      · cases hh : todo.is_completed
        · simp [hh]
          simp [hh, hbb, htc] at hrepC
          omega
        · simp [hh]
          simp [hh, hbb, htc] at hrepC
          omega
      · cases hh : todo.is_completed
        · simp [hh]
          simp [hh, hbb, htc] at hrepC
          omega
        · simp [hh]
          simp [hh, hbb, htc] at hrepC
          omega
  · show (s'.items.map Todo.id).Nodup
    rw [hids]
    exact hu

theorem wf_delete {s s' : TodoRepo} {id : Nat} (hwf : WF s)
    (h : s.delete id = .ok s') : WF s' := by
  obtain ⟨⟨h1, h2, h3⟩, hu⟩ := hwf
  obtain ⟨old, hf, hall', hc', ha', hitems'⟩ := delete_ok_elim h
  have hremT := countP_remove (fun _ => true) id s.items hu old hf
  have hremC := countP_remove (fun u => u.is_completed) id s.items hu old hf
  have hremA := countP_remove (fun u => !u.is_completed) id s.items hu old hf
  rw [← hitems'] at hremT hremC hremA
  rw [length_eq_countP_true s'.items, length_eq_countP_true s.items] at hremT
  simp at hremT
  refine ⟨⟨?_, ?_, ?_⟩, ?_⟩
  · rw [hall', h1]
    omega
  · rw [ha']
    unfold countActive at *
    cases hh : old.is_completed
    · rw [if_neg (by simp [hh])]
      simp [hh] at hremA
      omega
    · rw [if_pos (by simp [hh])]
      simp [hh] at hremA
      omega
  · rw [hc']
    unfold countCompleted at *
    cases hh : old.is_completed
    · rw [if_neg (by simp [hh])]
      simp [hh] at hremC
      omega
    · rw [if_pos (by simp [hh])]
      simp [hh] at hremC
      omega
  · show (s'.items.map Todo.id).Nodup
    rw [hitems']
    exact ((List.filter_sublist s.items).map Todo.id).nodup hu

theorem wf_delete_completed (s : TodoRepo) (hwf : WF s) :
    WF s.delete_completed := by
  obtain ⟨⟨h1, h2, h3⟩, hu⟩ := hwf
  refine ⟨⟨?_, ?_, ?_⟩, ?_⟩
  · show s.num_all_items - s.num_completed_items = _
    have hpart := countActive_add_countCompleted s.items
    have hlen : (s.items.filter (fun t => !t.is_completed)).length
        = countActive s.items := by
      unfold countActive
      rw [List.countP_eq_length_filter]
    show _ = (s.items.filter (fun t => !t.is_completed)).length
    rw [hlen, h1, h3]
    omega
  · show s.num_active_items = _
    unfold countActive at *
    rw [h2]
    show _ = List.countP _ (s.items.filter fun t => !t.is_completed)
    rw [List.countP_filter]
    apply List.countP_congr
    intro t _
    simp
  · show (0 : Nat) = _
    unfold countCompleted
    symm
    rw [List.countP_eq_zero]
    intro t ht
    have := (List.mem_filter.mp ht).2
    simp at this
    simp [this]
  · show ((s.items.filter _).map Todo.id).Nodup
    exact ((List.filter_sublist s.items).map Todo.id).nodup hu

theorem wf_toggle (s : TodoRepo) (action : TodoToggleAction) (hwf : WF s) :
    WF (s.toggle_completed action) := by
  obtain ⟨⟨h1, h2, h3⟩, hu⟩ := hwf
  cases action with
  | Check =>
    refine ⟨⟨?_, ?_, ?_⟩, ?_⟩
    · show s.num_all_items
        = (s.items.map fun t : Todo => ({ t with is_completed := true } : Todo)).length
      rw [List.length_map]
      exact h1
    · show (0 : Nat)
        = countActive (s.items.map fun t : Todo => ({ t with is_completed := true } : Todo))
      unfold countActive
      symm
      rw [List.countP_eq_zero]
      intro t ht
      obtain ⟨u, _, hut⟩ := List.mem_map.mp ht
      simp [← hut]
    · show s.num_all_items
        = countCompleted (s.items.map fun t : Todo => ({ t with is_completed := true } : Todo))
      unfold countCompleted
      have hall : List.countP (fun t => t.is_completed)
          (s.items.map fun t : Todo => ({ t with is_completed := true } : Todo))
          = (s.items.map fun t : Todo => ({ t with is_completed := true } : Todo)).length := by
        rw [List.countP_eq_length]
        intro t ht
        obtain ⟨u, _, hut⟩ := List.mem_map.mp ht
        simp [← hut]
      rw [hall, List.length_map]
      exact h1
    · show (((s.items.map fun t : Todo => ({ t with is_completed := true } : Todo)).map
        Todo.id)).Nodup
      rw [List.map_map]
      have hcomp : (Todo.id ∘ fun t : Todo => ({ t with is_completed := true } : Todo))
          = Todo.id := by
        funext u
        rfl
      rw [hcomp]
      exact hu
  | Uncheck =>
    refine ⟨⟨?_, ?_, ?_⟩, ?_⟩
    · show s.num_all_items
        = (s.items.map fun t : Todo => ({ t with is_completed := false } : Todo)).length
      rw [List.length_map]
      exact h1
    · show s.num_all_items
        = countActive (s.items.map fun t : Todo => ({ t with is_completed := false } : Todo))
      unfold countActive
      have hall : List.countP (fun t => !t.is_completed)
          (s.items.map fun t : Todo => ({ t with is_completed := false } : Todo))
          = (s.items.map fun t : Todo => ({ t with is_completed := false } : Todo)).length := by
        rw [List.countP_eq_length]
        intro t ht
        obtain ⟨u, _, hut⟩ := List.mem_map.mp ht
        simp [← hut]
      rw [hall, List.length_map]
      exact h1
    · show (0 : Nat)
        = countCompleted (s.items.map fun t : Todo => ({ t with is_completed := false } : Todo))
      unfold countCompleted
      symm
      rw [List.countP_eq_zero]
      intro t ht
      obtain ⟨u, _, hut⟩ := List.mem_map.mp ht
      simp [← hut]
    · show (((s.items.map fun t : Todo => ({ t with is_completed := false } : Todo)).map
        Todo.id)).Nodup
      rw [List.map_map]
      have hcomp : (Todo.id ∘ fun t : Todo => ({ t with is_completed := false } : Todo))
          = Todo.id := by
        funext u
        rfl
      rw [hcomp]
      exact hu

theorem reachable_wf {s : TodoRepo} (h : Reachable s) : WF s := by
  induction h with
  | init => exact wf_default
  | create s text now id _ hfresh ih => exact wf_create s text now id ih hfresh
  | update s s' id text c t _ hok ih => exact wf_update ih hok
  | delete s s' id _ hok ih => exact wf_delete ih hok
  | delete_completed s _ ih => exact wf_delete_completed s ih
  | toggle_completed s action _ ih => exact wf_toggle s action ih

theorem update_found (s : TodoRepo) (id : Nat) (text : Option String)
    (c : Option Bool) (todo : Todo) (hf : findTodo s.items id = some todo) :
    s.update id text c =
      .ok ({ num_completed_items := (completedStep s todo c).2.1,
             num_active_items := (completedStep s todo c).2.2,
             num_all_items := s.num_all_items,
             items := s.items.map (fun u =>
               if u.id == id then textStep (completedStep s todo c).1 text
               else u) },
           textStep (completedStep s todo c).1 text) := by
  unfold TodoRepo.update
  rw [hf]

theorem delete_found (s : TodoRepo) (id : Nat) (todo : Todo)
    (hf : findTodo s.items id = some todo) :
    s.delete id =
      .ok { num_all_items := s.num_all_items - 1,
            num_completed_items :=
              if todo.is_completed then s.num_completed_items - 1
              else s.num_completed_items,
            num_active_items :=
              if todo.is_completed then s.num_active_items
              else s.num_active_items - 1,
            items := s.items.filter (fun t => !(t.id == id)) } := by
  unfold TodoRepo.delete
  rw [hf]

theorem get_found (s : TodoRepo) (id : Nat) (todo : Todo)
    (hf : findTodo s.items id = some todo) : s.get id = .ok todo := by
  unfold TodoRepo.get
  rw [hf]

theorem findTodo_map_replace (id : Nat) (new : Todo) (hnew : new.id = id) :
    ∀ xs : List Todo, ∀ old, xs.find? (fun t => t.id == id) = some old →
      (xs.map (fun t => if t.id == id then new else t)).find?
          (fun t => t.id == id) = some new := by
  intro xs
  induction xs with
  | nil => intro old h; simp at h
  | cons a as ih =>
    intro old h
    by_cases ha : a.id = id
    · have hpa : (a.id == id) = true := by simpa using ha
      rw [List.map_cons, if_pos hpa]
      exact List.find?_cons_of_pos _ (by simp [hnew])
    · have hpa : (a.id == id) = false := by simpa using ha
      rw [List.find?_cons_of_neg as (by simp [hpa])] at h
      rw [List.map_cons, if_neg (by simp [ha])]
      rw [List.find?_cons_of_neg _ (by simp [ha])]
      exact ih old h

theorem countActive_pos {items : List Todo} {todo : Todo} (hmem : todo ∈ items)
    (hflag : todo.is_completed = false) : 0 < countActive items := by
  unfold countActive
  rw [List.countP_pos_iff]
  exact ⟨todo, hmem, by simp [hflag]⟩

theorem countCompleted_pos {items : List Todo} {todo : Todo}
    (hmem : todo ∈ items) (hflag : todo.is_completed = true) :
    0 < countCompleted items := by
  unfold countCompleted
  rw [List.countP_pos_iff]
  exact ⟨todo, hmem, by simp [hflag]⟩

/-! ### The claims -/

/-- C1: in every state reachable from the empty store by the public
operations, `num_active_items + num_completed_items == num_all_items ==
items.size()`, `num_active_items` is the number of stored tasks with
`is_completed == false`, and `num_completed_items` the number with
`is_completed == true`. -/
theorem c1_counter_consistency (s : TodoRepo) (hs : Reachable s) :
    s.num_active_items + s.num_completed_items = s.num_all_items ∧
    s.num_all_items = s.items.length ∧
    s.num_active_items = countActive s.items ∧
    s.num_completed_items = countCompleted s.items := by
  obtain ⟨⟨h1, h2, h3⟩, _⟩ := reachable_wf hs
  refine ⟨?_, h1, h2, h3⟩
  rw [h1, h2, h3]
  exact countActive_add_countCompleted s.items

/-- Witness for C1 at the concrete reachable state reached by one create. -/
theorem c1_counter_consistency_witness :
    (TodoRepo.default.create "a" 0 5).1.num_active_items
        + (TodoRepo.default.create "a" 0 5).1.num_completed_items
      = (TodoRepo.default.create "a" 0 5).1.num_all_items ∧
    (TodoRepo.default.create "a" 0 5).1.num_all_items
      = (TodoRepo.default.create "a" 0 5).1.items.length ∧
    (TodoRepo.default.create "a" 0 5).1.num_active_items
      = countActive (TodoRepo.default.create "a" 0 5).1.items ∧
    (TodoRepo.default.create "a" 0 5).1.num_completed_items
      = countCompleted (TodoRepo.default.create "a" 0 5).1.items :=
  c1_counter_consistency _
    (Reachable.create TodoRepo.default "a" 0 5 Reachable.init
      (fun t ht => absurd ht (List.not_mem_nil t)))

/-- C4: `toggle_completed(Check)` overwrites every stored flag to true and
sets `num_completed_items = num_all_items`, `num_active_items = 0`; with
`Uncheck` symmetrically; on a reachable store with N items, Check yields
`num_completed_items == N`. -/
theorem c4_toggle_overwrites (s : TodoRepo) (hs : Reachable s) :
    (s.toggle_completed .Check).items
        = s.items.map (fun t : Todo => ({ t with is_completed := true } : Todo)) ∧
    (s.toggle_completed .Check).num_completed_items
        = (s.toggle_completed .Check).num_all_items ∧
    (s.toggle_completed .Check).num_active_items = 0 ∧
    (s.toggle_completed .Check).num_completed_items = s.items.length ∧
    (s.toggle_completed .Uncheck).items
        = s.items.map (fun t : Todo => ({ t with is_completed := false } : Todo)) ∧
    (s.toggle_completed .Uncheck).num_active_items
        = (s.toggle_completed .Uncheck).num_all_items ∧
    (s.toggle_completed .Uncheck).num_completed_items = 0 ∧
    (s.toggle_completed .Uncheck).num_active_items = s.items.length := by
  obtain ⟨⟨h1, _, _⟩, _⟩ := reachable_wf hs
  exact ⟨rfl, rfl, rfl, h1, rfl, rfl, rfl, h1⟩

/-- Witness for C4 at a concrete two-element reachable store. -/
theorem c4_toggle_overwrites_witness :
    (((TodoRepo.default.create "a" 0 1).1.create "b" 1 2).1.toggle_completed
        .Check).num_completed_items
      = ((TodoRepo.default.create "a" 0 1).1.create "b" 1 2).1.items.length :=
  (c4_toggle_overwrites _
    (Reachable.create _ "b" 1 2
      (Reachable.create TodoRepo.default "a" 0 1 Reachable.init
        (fun t ht => absurd ht (List.not_mem_nil t)))
      (by intro t ht; simp [TodoRepo.create, TodoRepo.default, insertItem,
            Todo.new] at ht; simp [ht]))).2.2.2.1

/-- C5: `delete_completed` always succeeds (it is a total function), removes
exactly the completed tasks, and on a reachable store leaves
`num_completed_items == 0`, decreases `num_all_items` by exactly the number
of removed tasks, and leaves `num_active_items` unchanged. -/
theorem c5_delete_completed (s : TodoRepo) (hs : Reachable s) :
    (∀ t : Todo, t ∈ s.delete_completed.items
        ↔ t ∈ s.items ∧ t.is_completed = false) ∧
    s.delete_completed.num_completed_items = 0 ∧
    s.delete_completed.items.length + countCompleted s.items
        = s.items.length ∧
    s.delete_completed.num_all_items + countCompleted s.items
        = s.num_all_items ∧
    s.delete_completed.num_active_items = s.num_active_items := by
  obtain ⟨⟨h1, h2, h3⟩, _⟩ := reachable_wf hs
  have hpart := countActive_add_countCompleted s.items
  have hlen : s.delete_completed.items.length = countActive s.items := by
    show (s.items.filter fun t => !t.is_completed).length = _
    unfold countActive
    rw [List.countP_eq_length_filter]
  refine ⟨?_, rfl, ?_, ?_, rfl⟩
  · intro t
    show t ∈ s.items.filter (fun t => !t.is_completed) ↔ _
    rw [List.mem_filter]
    simp
  · omega
  · show s.num_all_items - s.num_completed_items + countCompleted s.items
        = s.num_all_items
    omega

/-- Witness for C5 at a concrete reachable store with one completed task. -/
theorem c5_delete_completed_witness :
    (TodoRepo.default.create "a" 0 9).1.delete_completed.num_completed_items
        = 0 ∧
    (TodoRepo.default.create "a" 0 9).1.delete_completed.num_active_items
        = (TodoRepo.default.create "a" 0 9).1.num_active_items :=
  have h := c5_delete_completed _
    (Reachable.create TodoRepo.default "a" 0 9 Reachable.init
      (fun t ht => absurd ht (List.not_mem_nil t)))
  ⟨h.2.1, h.2.2.2.2⟩

/-- C6: `create(text)` inserts a new task with `is_completed = false`, the
given text (empty string allowed), `created_at = now`, and the freshly
generated id (assumed distinct from every stored id, as `Uuid::new_v4`
guarantees in practice); it bumps `num_active_items` and `num_all_items` by
one, leaves `num_completed_items` alone, never fails (it is a total
function), and returns the inserted task, which a subsequent `get` of the
same id returns again. -/
theorem c6_create (s : TodoRepo) (text : String) (now id : Nat)
    (hfresh : freshId s id) :
    (s.create text now id).2.is_completed = false ∧
    (s.create text now id).2.text = text ∧
    (s.create text now id).2.created_at = now ∧
    (s.create text now id).2.id = id ∧
    (s.create text now id).1.items = s.items ++ [(s.create text now id).2] ∧
    (s.create text now id).1.num_active_items = s.num_active_items + 1 ∧
    (s.create text now id).1.num_all_items = s.num_all_items + 1 ∧
    (s.create text now id).1.num_completed_items = s.num_completed_items ∧
    (s.create text now id).1.get id = .ok (s.create text now id).2 := by
  have hnone : s.items.find? (fun t => t.id == id) = none := by
    rw [List.find?_eq_none]
    intro t ht
    simp [hfresh t ht]
  refine ⟨rfl, rfl, rfl, rfl, create_items s text now id hfresh,
    rfl, rfl, rfl, ?_⟩
  have hfind : findTodo (s.create text now id).1.items id
      = some (Todo.new text now id) := by
    show findTodo (insertItem s.items (Todo.new text now id)) id = _
    rw [insertItem_fresh s.items (Todo.new text now id)
      (fun t ht => hfresh t ht)]
    unfold findTodo
    rw [List.find?_append, hnone]
    simp [Todo.new]
  exact get_found _ _ _ hfind

/-- Witness for C6 on the empty store with empty text. -/
theorem c6_create_witness :
    (TodoRepo.default.create "" 3 4).2.is_completed = false ∧
    (TodoRepo.default.create "" 3 4).2.text = "" ∧
    (TodoRepo.default.create "" 3 4).1.get 4
      = .ok (TodoRepo.default.create "" 3 4).2 :=
  have h := c6_create TodoRepo.default "" 3 4
    (fun t ht => absurd ht (List.not_mem_nil t))
  ⟨h.1, h.2.1, h.2.2.2.2.2.2.2.2⟩

/-- C7: deleting a present id succeeds, removes exactly that task, and
decrements `num_all_items` and the counter matching the removed task's
completion flag by one, leaving the other counter unchanged. -/
theorem c7_delete (s : TodoRepo) (id : Nat) (todo : Todo)
    (hs : Reachable s) (hf : findTodo s.items id = some todo) :
    ∃ s', s.delete id = .ok s' ∧
      (∀ t : Todo, t ∈ s'.items ↔ t ∈ s.items ∧ t.id ≠ id) ∧
      s'.items.length + 1 = s.items.length ∧
      s'.num_all_items + 1 = s.num_all_items ∧
      (todo.is_completed = true →
        s'.num_completed_items + 1 = s.num_completed_items ∧
        s'.num_active_items = s.num_active_items) ∧
      (todo.is_completed = false →
        s'.num_active_items + 1 = s.num_active_items ∧
        s'.num_completed_items = s.num_completed_items) := by
  obtain ⟨⟨h1, h2, h3⟩, hu⟩ := reachable_wf hs
  have hmem : todo ∈ s.items := findTodo_some_mem hf
  refine ⟨_, delete_found s id todo hf, ?_, ?_, ?_, ?_, ?_⟩
  · intro t
    show t ∈ s.items.filter (fun u => !(u.id == id)) ↔ _
    rw [List.mem_filter]
    simp
  · show (s.items.filter (fun u => !(u.id == id))).length + 1 = _
    have hremT := countP_remove (fun _ => true) id s.items hu todo hf
    rw [length_eq_countP_true, length_eq_countP_true] at hremT
    simp at hremT
    exact hremT
  · show s.num_all_items - 1 + 1 = s.num_all_items
    have hpos : 0 < s.items.length := by
      cases hitems : s.items with
      | nil => rw [hitems] at hmem; exact absurd hmem (List.not_mem_nil todo)
      | cons a as => simp [hitems]
    omega
  · intro hc
    constructor
    · show (if todo.is_completed = true then s.num_completed_items - 1
          else s.num_completed_items) + 1 = s.num_completed_items
      rw [if_pos hc]
      have := countCompleted_pos hmem hc
      omega
    · show (if todo.is_completed = true then s.num_active_items
          else s.num_active_items - 1) = s.num_active_items
      rw [if_pos hc]
  · intro hc
    constructor
    · show (if todo.is_completed = true then s.num_active_items
          else s.num_active_items - 1) + 1 = s.num_active_items
      rw [if_neg (by simp [hc])]
      have := countActive_pos hmem hc
      omega
    · show (if todo.is_completed = true then s.num_completed_items - 1
          else s.num_completed_items) = s.num_completed_items
      rw [if_neg (by simp [hc])]

/-- Witness for C7 at a concrete one-element reachable store. -/
theorem c7_delete_witness :
    ∃ s', (TodoRepo.default.create "a" 0 6).1.delete 6 = .ok s' ∧
      (∀ t : Todo, t ∈ s'.items
          ↔ t ∈ (TodoRepo.default.create "a" 0 6).1.items ∧ t.id ≠ 6) ∧
      s'.items.length + 1 = (TodoRepo.default.create "a" 0 6).1.items.length ∧
      s'.num_all_items + 1 = (TodoRepo.default.create "a" 0 6).1.num_all_items ∧
      ((TodoRepo.default.create "a" 0 6).2.is_completed = true →
        s'.num_completed_items + 1
            = (TodoRepo.default.create "a" 0 6).1.num_completed_items ∧
        s'.num_active_items
            = (TodoRepo.default.create "a" 0 6).1.num_active_items) ∧
      ((TodoRepo.default.create "a" 0 6).2.is_completed = false →
        s'.num_active_items + 1
            = (TodoRepo.default.create "a" 0 6).1.num_active_items ∧
        s'.num_completed_items
            = (TodoRepo.default.create "a" 0 6).1.num_completed_items) :=
  c7_delete (TodoRepo.default.create "a" 0 6).1 6
    (TodoRepo.default.create "a" 0 6).2
    (Reachable.create TodoRepo.default "a" 0 6 Reachable.init
      (fun t ht => absurd ht (List.not_mem_nil t)))
    (by rfl)

theorem stepUpdate_found (s : TodoRepo) (id : Nat) (text : Option String)
    (c : Option Bool) (todo : Todo) (hf : findTodo s.items id = some todo) :
    (stepUpdate s id text c).1 =
      { num_completed_items := (completedStep s todo c).2.1,
        num_active_items := (completedStep s todo c).2.2,
        num_all_items := s.num_all_items,
        items := s.items.map (fun u =>
          if u.id == id then textStep (completedStep s todo c).1 text
          else u) } := by
  unfold stepUpdate
  rw [update_found s id text c todo hf]

theorem completedStep_same (s : TodoRepo) (todo : Todo) (c : Bool)
    (hc : todo.is_completed = c) :
    completedStep s todo (some c)
      = (todo, s.num_completed_items, s.num_active_items) := by
  simp only [completedStep]
  rw [if_neg (by simp [hc])]

theorem completedStep_flip_true (s : TodoRepo) (todo : Todo)
    (hc : todo.is_completed = false) :
    completedStep s todo (some true)
      = (({ todo with is_completed := true } : Todo),
         s.num_completed_items + 1, s.num_active_items - 1) := by
  simp only [completedStep]
  rw [if_pos (by simp [hc])]
  simp

theorem completedStep_flip_false (s : TodoRepo) (todo : Todo)
    (hc : todo.is_completed = true) :
    completedStep s todo (some false)
      = (({ todo with is_completed := false } : Todo),
         s.num_completed_items - 1, s.num_active_items + 1) := by
  simp only [completedStep]
  rw [if_pos (by simp [hc])]
  simp

/-- C3: `get`, `update` (with any argument combination) and `delete` on an
absent id all return `NotFound`, and for `update` and `delete` the receiver
state is exactly unchanged (the `?` fires before any mutation); on a present
id none of them returns `NotFound`. -/
theorem c3_notfound_atomic (s : TodoRepo) (id : Nat) :
    (findTodo s.items id = none →
      s.get id = .error .NotFound ∧
      (∀ (text : Option String) (c : Option Bool),
        s.update id text c = .error .NotFound) ∧
      (∀ (text : Option String) (c : Option Bool),
        (stepUpdate s id text c).1 = s) ∧
      s.delete id = .error .NotFound ∧
      (stepDelete s id).1 = s) ∧
    (∀ todo, findTodo s.items id = some todo →
      s.get id ≠ .error .NotFound ∧
      (∀ (text : Option String) (c : Option Bool),
        s.update id text c ≠ .error .NotFound) ∧
      s.delete id ≠ .error .NotFound) := by
  constructor
  · intro hn
    have hup : ∀ (text : Option String) (c : Option Bool),
        s.update id text c = .error .NotFound :=
      fun text c => (update_err_iff s id text c).mpr hn
    have hdel : s.delete id = .error .NotFound := (delete_err_iff s id).mpr hn
    refine ⟨(get_err_iff s id).mpr hn, hup, ?_, hdel, ?_⟩
    · intro text c
      unfold stepUpdate
      rw [hup text c]
    · unfold stepDelete
      rw [hdel]
  · intro todo hf
    refine ⟨?_, ?_, ?_⟩
    · rw [get_found s id todo hf]
      simp
    · intro text c
      rw [update_found s id text c todo hf]
      simp
    · rw [delete_found s id todo hf]
      simp

/-- Witness for C3: an absent id on the empty store, a present id on a
one-element store. -/
theorem c3_notfound_atomic_witness :
    TodoRepo.default.get 0 = .error .NotFound ∧
    (stepDelete TodoRepo.default 0).1 = TodoRepo.default ∧
    (TodoRepo.default.create "a" 0 7).1.delete 7 ≠ .error .NotFound :=
  have h0 := c3_notfound_atomic TodoRepo.default 0
  have h1 := c3_notfound_atomic (TodoRepo.default.create "a" 0 7).1 7
  ⟨(h0.1 rfl).1, (h0.1 rfl).2.2.2.2,
    (h1.2 (TodoRepo.default.create "a" 0 7).2 rfl).2.2⟩

/-- C8: `list(filter)` leaves the store untouched, returns exactly the tasks
matching the filter (each exactly once on a reachable store), sorted by
`created_at` descending; an empty result is an ordinary value, not an
error. -/
theorem c8_list (s : TodoRepo) (filter : TodoListFilter) (hs : Reachable s) :
    (stepList s filter).1 = s ∧
    (s.list filter).Perm (s.items.filter (matchesFilter filter)) ∧
    (∀ t : Todo, t ∈ s.list filter
        ↔ t ∈ s.items ∧ matchesFilter filter t = true) ∧
    (s.list filter).Pairwise (fun a b => b.created_at ≤ a.created_at) ∧
    (s.list filter).Nodup := by
  have htrans : ∀ a b c : Todo,
      listLe a b = true → listLe b c = true → listLe a c = true := by
    intro a b c hab hbc
    unfold listLe at *
    simp at *
    omega
  have htotal : ∀ a b : Todo, (listLe a b || listLe b a) = true := by
    intro a b
    unfold listLe
    rcases Nat.le_total b.created_at a.created_at with h | h <;> simp [h]
  have hperm := List.mergeSort_perm (s.items.filter (matchesFilter filter)) listLe
  refine ⟨rfl, hperm, ?_, ?_, ?_⟩
  · intro t
    rw [show (s.list filter)
        = (s.items.filter (matchesFilter filter)).mergeSort listLe from rfl]
    rw [hperm.mem_iff, List.mem_filter]
  · have hsorted := List.sorted_mergeSort htrans htotal
      (s.items.filter (matchesFilter filter))
    refine List.Pairwise.imp ?_ hsorted
    intro a b h
    unfold listLe at h
    simpa using h
  · have hitemsnd : s.items.Nodup := (reachable_wf hs).2.of_map
    exact hperm.nodup_iff.mpr (hitemsnd.filter _)

/-- Witness for C8 at a concrete reachable store. -/
theorem c8_list_witness :
    (stepList (TodoRepo.default.create "a" 0 8).1 TodoListFilter.All).1
        = (TodoRepo.default.create "a" 0 8).1 ∧
    ((TodoRepo.default.create "a" 0 8).1.list TodoListFilter.All).Nodup :=
  have h := c8_list (TodoRepo.default.create "a" 0 8).1 TodoListFilter.All
    (Reachable.create TodoRepo.default "a" 0 8 Reachable.init
      (fun t ht => absurd ht (List.not_mem_nil t)))
  ⟨h.1, h.2.2.2.2⟩

/-- C2: supplying `Some(c)` equal to the stored flag leaves all three
counters unchanged; a genuine flip moves `num_completed_items` and
`num_active_items` by exactly 1 in opposite directions; updating with
`Some(true)` twice in a row on an active task changes `num_completed_items`
by 1 in total, not 2. -/
theorem c2_update_idempotent (s : TodoRepo) (id : Nat) (todo : Todo)
    (hs : Reachable s) (hf : findTodo s.items id = some todo) :
    (∀ (text : Option String) (c : Bool), todo.is_completed = c →
      (stepUpdate s id text (some c)).1.num_completed_items
          = s.num_completed_items ∧
      (stepUpdate s id text (some c)).1.num_active_items
          = s.num_active_items ∧
      (stepUpdate s id text (some c)).1.num_all_items = s.num_all_items) ∧
    (∀ text : Option String, todo.is_completed = false →
      (stepUpdate s id text (some true)).1.num_completed_items
          = s.num_completed_items + 1 ∧
      (stepUpdate s id text (some true)).1.num_active_items + 1
          = s.num_active_items) ∧
    (∀ text : Option String, todo.is_completed = true →
      (stepUpdate s id text (some false)).1.num_completed_items + 1
          = s.num_completed_items ∧
      (stepUpdate s id text (some false)).1.num_active_items
          = s.num_active_items + 1) ∧
    (todo.is_completed = false →
      (stepUpdate (stepUpdate s id none (some true)).1 id none
          (some true)).1.num_completed_items = s.num_completed_items + 1) := by
  obtain ⟨⟨h1, h2, h3⟩, _⟩ := reachable_wf hs
  have hmem : todo ∈ s.items := findTodo_some_mem hf
  have htid : todo.id = id := findTodo_some_id hf
  refine ⟨?_, ?_, ?_, ?_⟩
  · intro text c hc
    rw [stepUpdate_found s id text (some c) todo hf,
      completedStep_same s todo c hc]
    exact ⟨rfl, rfl, rfl⟩
  · intro text hc
    rw [stepUpdate_found s id text (some true) todo hf,
      completedStep_flip_true s todo hc]
    refine ⟨rfl, ?_⟩
    show s.num_active_items - 1 + 1 = s.num_active_items
    have := countActive_pos hmem hc
    omega
  · intro text hc
    rw [stepUpdate_found s id text (some false) todo hf,
      completedStep_flip_false s todo hc]
    refine ⟨?_, rfl⟩
    show s.num_completed_items - 1 + 1 = s.num_completed_items
    have := countCompleted_pos hmem hc
    omega
  · intro hc
    have hs1 := stepUpdate_found s id none (some true) todo hf
    have hflip := completedStep_flip_true s todo hc
    have hfind1 : findTodo (stepUpdate s id none (some true)).1.items id
        = some ({ todo with is_completed := true } : Todo) := by
      rw [hs1]
      show findTodo (s.items.map fun u =>
        if u.id == id then textStep (completedStep s todo (some true)).1 none
        else u) id = _
      rw [hflip]
      show (s.items.map fun u =>
          if u.id == id then ({ todo with is_completed := true } : Todo)
          else u).find? (fun t => t.id == id)
        = some ({ todo with is_completed := true } : Todo)
      exact findTodo_map_replace id ({ todo with is_completed := true } : Todo) htid s.items todo hf
    rw [stepUpdate_found (stepUpdate s id none (some true)).1 id none
      (some true) _ hfind1]
    rw [completedStep_same _ _ true rfl]
    show (stepUpdate s id none (some true)).1.num_completed_items
        = s.num_completed_items + 1
    rw [hs1, hflip]

/-- Witness for C2 at a concrete one-element reachable store with an active
task. -/
theorem c2_update_idempotent_witness :
    (stepUpdate (stepUpdate (TodoRepo.default.create "a" 0 3).1 3 none
          (some true)).1 3 none (some true)).1.num_completed_items
      = (TodoRepo.default.create "a" 0 3).1.num_completed_items + 1 :=
  ((c2_update_idempotent (TodoRepo.default.create "a" 0 3).1 3
      (TodoRepo.default.create "a" 0 3).2
      (Reachable.create TodoRepo.default "a" 0 3 Reachable.init
        (fun t ht => absurd ht (List.not_mem_nil t)))
      (by rfl)).2.2.2) rfl

/-- C10: in every reachable state, each `u32` subtraction the code performs
is applied to a strictly positive counter (`delete`: `num_all_items` and the
counter matching the removed flag; `update` on a flip: the counter of the
side being left), and `num_completed_items <= num_all_items` holds before
`delete_completed` subtracts it from `num_all_items`; so no decrement can
underflow. -/
theorem c10_no_underflow (s : TodoRepo) (hs : Reachable s) :
    (∀ (id : Nat) (todo : Todo), findTodo s.items id = some todo →
      0 < s.num_all_items ∧
      (todo.is_completed = true → 0 < s.num_completed_items) ∧
      (todo.is_completed = false → 0 < s.num_active_items)) ∧
    s.num_completed_items ≤ s.num_all_items := by
  obtain ⟨⟨h1, h2, h3⟩, _⟩ := reachable_wf hs
  constructor
  · intro id todo hf
    have hmem := findTodo_some_mem hf
    have hpos : 0 < s.items.length := by
      cases hitems : s.items with
      | nil =>
        rw [hitems] at hmem
        exact absurd hmem (List.not_mem_nil todo)
      | cons a as => simp [hitems]
    refine ⟨by omega, ?_, ?_⟩
    · intro hc
      have := countCompleted_pos hmem hc
      omega
    · intro hc
      have := countActive_pos hmem hc
      omega
  · have hle : List.countP (fun t => t.is_completed) s.items
        ≤ s.items.length := List.countP_le_length _
    unfold countCompleted at h3
    omega

/-- Witness for C10 at a concrete one-element reachable store. -/
theorem c10_no_underflow_witness :
    0 < (TodoRepo.default.create "a" 0 2).1.num_all_items ∧
    (TodoRepo.default.create "a" 0 2).1.num_completed_items
      ≤ (TodoRepo.default.create "a" 0 2).1.num_all_items :=
  have h := c10_no_underflow (TodoRepo.default.create "a" 0 2).1
    (Reachable.create TodoRepo.default "a" 0 2 Reachable.init
      (fun t ht => absurd ht (List.not_mem_nil t)))
  ⟨(h.1 2 (TodoRepo.default.create "a" 0 2).2 rfl).1, h.2⟩

/-- C9 counterexample: two runs of the same call sequence (one `create "a"`)
whose environment-generated uuids differ end in different stores, so an
operation's output is not a function of the call sequence alone. -/
theorem c9_determinism_counterexample :
    Exec TodoRepo.default [Call.create "a"] [(0, 0)]
      (TodoRepo.default.create "a" 0 0).1 ∧
    Exec TodoRepo.default [Call.create "a"] [(1, 0)]
      (TodoRepo.default.create "a" 0 1).1 ∧
    (TodoRepo.default.create "a" 0 0).1 ≠ (TodoRepo.default.create "a" 0 1).1 := by
  refine ⟨?_, ?_, ?_⟩
  · exact Exec.create _ _ _ _ _ _ _ (Exec.nil _)
  · exact Exec.create _ _ _ _ _ _ _ (Exec.nil _)
  · decide

/-- C9 (amended): two runs from the same state that apply the same call
sequence and draw the same generated ids and timestamps end in the same
final store. -/
theorem c9_determinism_relative (s : TodoRepo) (cs : List Call)
    (gen : List (Nat × Nat)) (s1 s2 : TodoRepo)
    (hr1 : Exec s cs gen s1) (hr2 : Exec s cs gen s2) : s1 = s2 := by
  induction hr1 generalizing s2 with
  | nil s =>
    cases hr2
    rfl
  | create s text id now cs gen s' _ ih =>
    cases hr2 with
    | create _ _ _ _ _ _ _ h => exact ih _ h
  | update s id text c cs gen s' _ ih =>
    cases hr2 with
    | update _ _ _ _ _ _ _ h => exact ih _ h
  | delete s id cs gen s' _ ih =>
    cases hr2 with
    | delete _ _ _ _ _ h => exact ih _ h
  | deleteCompleted s cs gen s' _ ih =>
    cases hr2 with
    | deleteCompleted _ _ _ _ h => exact ih _ h
  | toggleCompleted s action cs gen s' _ ih =>
    cases hr2 with
    | toggleCompleted _ _ _ _ _ h => exact ih _ h
  | get s id cs gen s' _ ih =>
    cases hr2 with
    | get _ _ _ _ _ h => exact ih _ h
  | list s filter cs gen s' _ ih =>
    cases hr2 with
    | list _ _ _ _ _ h => exact ih _ h

/-- Witness for the amended C9 at a concrete one-call run. -/
theorem c9_determinism_relative_witness :
    Exec TodoRepo.default [Call.create "b"] [(3, 2)]
      (TodoRepo.default.create "b" 2 3).1 ∧
    (TodoRepo.default.create "b" 2 3).1 = (TodoRepo.default.create "b" 2 3).1 :=
  ⟨Exec.create _ _ _ _ _ _ _ (Exec.nil _),
    c9_determinism_relative TodoRepo.default [Call.create "b"] [(3, 2)] _ _
      (Exec.create _ _ _ _ _ _ _ (Exec.nil _))
      (Exec.create _ _ _ _ _ _ _ (Exec.nil _))⟩

end FerrisTodo
